import Mathlib

/-!
Verification of the Minesweeper inference engine in
src/minesweeper/minesweeper/minesweeper.py, a knowledge-based agent that
records observations as logical sentences over board cells and derives
safe cells and mine cells.  Python sets of cells are modelled as Finset,
the knowledge list as a List of sentences, Python int as Int, and a
method that raises an exception is modelled with an explicit error value
alongside the state reached when the exception propagates, so that the
partial mutations performed before the raise are kept.
-/

/-- A board cell: a pair of integer coordinates (row, column). -/
abbrev Cell := Int × Int

/-- A logical statement about the game: a set of board cells together with
the count of how many of those cells are mines.  Mirrors class Sentence
(fields set in the constructor: cells, count). -/
structure Sentence where
  cells : Finset Cell
  count : Int
deriving DecidableEq

/-- Sentence.known_mines: returns the cell set when its size equals the
count, otherwise the empty set. -/
def Sentence.known_mines (s : Sentence) : Finset Cell :=
  if (s.cells.card : Int) = s.count then s.cells else ∅

/-- Sentence.known_safes: the source first tests whether the cell-set size
equals the count (returning empty), then whether the count is zero
(returning the cells), else empty.  The branch order of the source is kept. -/
def Sentence.known_safes (s : Sentence) : Finset Cell :=
  if (s.cells.card : Int) = s.count then ∅
  else if s.count = 0 then s.cells
  else ∅

/-- Sentence.mark_mine: its first statement reads the attribute mines on a
Sentence object, which the Sentence constructor never sets, so the call
raises AttributeError before performing any mutation.  The error value
models the exception; no updated sentence is ever produced. -/
def Sentence.mark_mine (_s : Sentence) (_cell : Cell) : Except String Sentence :=
  .error "AttributeError: Sentence object has no attribute mines"

/-- Sentence.mark_safe: its first statement reads the attribute safe on a
Sentence object, which the Sentence constructor never sets, so the call
raises AttributeError before performing any mutation. -/
def Sentence.mark_safe (_s : Sentence) (_cell : Cell) : Except String Sentence :=
  .error "AttributeError: Sentence object has no attribute safe"

/-- State of class MinesweeperAI: grid dimensions, the moves made, the
cells known to be mines, the cells known to be safe, and the list of
sentences (the knowledge base). -/
structure MinesweeperAI where
  height : Nat
  width : Nat
  moves_made : Finset Cell
  mines : Finset Cell
  safes : Finset Cell
  knowledge : List Sentence
deriving DecidableEq

/-- The fresh state built by the MinesweeperAI constructor: empty sets and
an empty knowledge list. -/
def initialAI (h w : Nat) : MinesweeperAI :=
  { height := h, width := w, moves_made := ∅, mines := ∅, safes := ∅, knowledge := [] }

/-- The loop in MinesweeperAI.mark_mine over the knowledge list: each
sentence is sent mark_mine; if that raises, the exception propagates with
the sentences processed so far unchanged (a raising call mutates nothing). -/
def markMineLoop (sentences : List Sentence) (cell : Cell) :
    List Sentence × Option String :=
  match sentences with
  | [] => ([], none)
  | s :: rest =>
    match s.mark_mine cell with
    | .ok s2 =>
      let r := markMineLoop rest cell
      (s2 :: r.1, r.2)
    | .error e => (s :: rest, some e)

/-- The loop in MinesweeperAI.mark_safe over the knowledge list. -/
def markSafeLoop (sentences : List Sentence) (cell : Cell) :
    List Sentence × Option String :=
  match sentences with
  | [] => ([], none)
  | s :: rest =>
    match s.mark_safe cell with
    | .ok s2 =>
      let r := markSafeLoop rest cell
      (s2 :: r.1, r.2)
    | .error e => (s :: rest, some e)

/-- MinesweeperAI.mark_mine: first adds the cell to the mines set, then
iterates over the knowledge list calling Sentence.mark_mine.  The second
component records the exception, if one was raised during the loop; the
first component is the state reached when the method returns or the
exception propagates. -/
def MinesweeperAI.mark_mine (ai : MinesweeperAI) (cell : Cell) :
    MinesweeperAI × Option String :=
  let r := markMineLoop ai.knowledge cell
  ({ ai with mines := insert cell ai.mines, knowledge := r.1 }, r.2)

/-- MinesweeperAI.mark_safe: first adds the cell to the safes set, then
iterates over the knowledge list calling Sentence.mark_safe. -/
def MinesweeperAI.mark_safe (ai : MinesweeperAI) (cell : Cell) :
    MinesweeperAI × Option String :=
  let r := markSafeLoop ai.knowledge cell
  ({ ai with safes := insert cell ai.safes, knowledge := r.1 }, r.2)

/-- MinesweeperAI.add_knowledge: the body of the method consists solely of
a nested def statement (a local function, itself named add_knowledge) that
is never invoked.  Defining a nested function only binds a local name, so
the method performs no observable effect and falls off the end, returning
None (modelled by Unit). -/
def MinesweeperAI.add_knowledge (ai : MinesweeperAI) (_cell : Cell) (_count : Int) :
    MinesweeperAI × Unit :=
  (ai, ())

/-- The candidate sentence derived by the subset-inference step inside the
nested function of add_knowledge: cell set is the difference of the two
cell sets, count is the difference of the two counts. -/
def inferredSentence (s1 s2 : Sentence) : Sentence :=
  { cells := s2.cells \ s1.cells, count := s2.count - s1.count }

/-- A sentence whose count lies between 0 and the size of its cell set. -/
def SentenceValid (s : Sentence) : Prop :=
  0 ≤ s.count ∧ s.count ≤ (s.cells.card : Int)

instance (s : Sentence) : Decidable (SentenceValid s) := by
  unfold SentenceValid; infer_instance

/-- MinesweeperAI.make_safe_move iterates over the safes set in the
iteration order of a Python set, here passed explicitly as a list, and
returns the first element not in moves_made, or None. -/
def MinesweeperAI.make_safe_move (ai : MinesweeperAI) (order : List Cell) :
    Option Cell :=
  order.find? (fun c => decide (c ∉ ai.moves_made))

/-- The full grid of cells (i, j) with 0 ≤ i < h and 0 ≤ j < w, as built
by the comprehension in make_random_move. -/
def allCells (h w : Nat) : Finset Cell :=
  ((Finset.range h) ×ˢ (Finset.range w)).image (fun p => ((p.1 : Int), (p.2 : Int)))

/-- The set all_moves - moves_made - mines computed by make_random_move. -/
def MinesweeperAI.possible_moves (ai : MinesweeperAI) : Finset Cell :=
  (allCells ai.height ai.width \ ai.moves_made) \ ai.mines

/-- MinesweeperAI.make_random_move: if the possible-move set is non-empty,
random.choice picks one element of its list enumeration (the enumeration
order is passed explicitly, the random draw as an index); otherwise None. -/
def MinesweeperAI.make_random_move (ai : MinesweeperAI) (order : List Cell)
    (k : Nat) : Option Cell :=
  if ai.possible_moves = ∅ then none
  else order.get? (k % order.length)

/-- One call made by the game loop against the engine. -/
inductive Op where
  | mSafe (c : Cell)
  | mMine (c : Cell)
  | record (c : Cell) (n : Int)
deriving DecidableEq

/-- Apply one call to the engine state, keeping the state reached even
when the call raises. -/
def applyOp (ai : MinesweeperAI) : Op → MinesweeperAI
  | .mSafe c => (ai.mark_safe c).1
  | .mMine c => (ai.mark_mine c).1
  | .record c n => (ai.add_knowledge c n).1

/-- Run a sequence of calls left to right. -/
def runOps (ai : MinesweeperAI) : List Op → MinesweeperAI
  | [] => ai
  | op :: rest => runOps (applyOp ai op) rest

/-- The cells passed to mark_safe in a sequence of calls. -/
def safeSet : List Op → Finset Cell
  | [] => ∅
  | .mSafe c :: rest => insert c (safeSet rest)
  | _ :: rest => safeSet rest

/-- The cells passed to mark_mine in a sequence of calls. -/
def mineSet : List Op → Finset Cell
  | [] => ∅
  | .mMine c :: rest => insert c (mineSet rest)
  | _ :: rest => mineSet rest

/-- A concrete engine state whose knowledge list holds one sentence, used
to exercise the mark operations with a non-empty constraint list. -/
def aiC3 : MinesweeperAI :=
  { height := 3, width := 3, moves_made := ∅, mines := ∅, safes := ∅,
    knowledge := [{ cells := {((0 : Int), (0 : Int))}, count := 1 }] }

/-- A concrete engine state with one two-cell sentence of count 1. -/
def aiC4 : MinesweeperAI :=
  { height := 3, width := 3, moves_made := ∅, mines := ∅, safes := ∅,
    knowledge := [{ cells := {((0 : Int), (0 : Int)), ((0 : Int), (1 : Int))}, count := 1 }] }

/-- A concrete engine state holding a count-zero sentence: one propagation
pass would mark the cell (0, 1) safe. -/
def aiC6 : MinesweeperAI :=
  { height := 3, width := 3, moves_made := ∅, mines := ∅, safes := ∅,
    knowledge := [{ cells := {((0 : Int), (1 : Int))}, count := 0 }] }

/-- A one-cell sentence of count 1 (valid on its own). -/
def s1C8 : Sentence := { cells := {((0 : Int), (0 : Int))}, count := 1 }

/-- A two-cell sentence of count 0 (valid on its own) whose cell set
contains the cell set of s1C8. -/
def s2C8 : Sentence := { cells := {((0 : Int), (0 : Int)), ((0 : Int), (1 : Int))}, count := 0 }

/-- A two-cell sentence of count 1 containing the cell set of s1C8, jointly
satisfiable with it via the mine set mC8. -/
def s3C8 : Sentence := { cells := {((0 : Int), (0 : Int)), ((0 : Int), (1 : Int))}, count := 1 }

/-- A mine assignment satisfying s1C8 and s3C8 simultaneously. -/
def mC8 : Finset Cell := {((0 : Int), (0 : Int))}

/-- A concrete engine state on a 2 by 2 grid used for the move-selection
queries: one move made, one known mine, two known safe cells. -/
def aiC9 : MinesweeperAI :=
  { height := 2, width := 2,
    moves_made := {((0 : Int), (0 : Int))},
    mines := {((1 : Int), (1 : Int))},
    safes := {((0 : Int), (0 : Int)), ((0 : Int), (1 : Int))},
    knowledge := [] }

/-- An enumeration of the safes set of aiC9. -/
def soC9 : List Cell := [((0 : Int), (0 : Int)), ((0 : Int), (1 : Int))]

/-- An enumeration of the possible-move set of aiC9. -/
def roC9 : List Cell := [((0 : Int), (1 : Int)), ((1 : Int), (0 : Int))]

/-- A concrete call sequence marking distinct cells safe and mine. -/
def opsC7 : List Op := [Op.mSafe (0, 0), Op.mMine (1, 1), Op.record (2, 2) 0]

/-- The knowledge list survives the mark_safe loop unchanged: every call to
Sentence.mark_safe raises before mutating, so either the list is empty or
the loop stops at its first element. -/
theorem markSafeLoop_fst (l : List Sentence) (c : Cell) : (markSafeLoop l c).1 = l := by
  cases l <;> rfl

/-- The knowledge list survives the mark_mine loop unchanged. -/
theorem markMineLoop_fst (l : List Sentence) (c : Cell) : (markMineLoop l c).1 = l := by
  cases l <;> rfl

/-- Running a call sequence accumulates exactly the safe-marked cells into
the safes set. -/
theorem runOps_safes (ai : MinesweeperAI) (ops : List Op) :
    (runOps ai ops).safes = ai.safes ∪ safeSet ops := by
  induction ops generalizing ai with
  | nil => simp [runOps, safeSet]
  | cons op rest ih =>
    cases op with
    | mSafe c =>
      simp [runOps, applyOp, MinesweeperAI.mark_safe, safeSet, ih,
        Finset.insert_union, Finset.union_insert]
    | mMine c =>
      simp [runOps, applyOp, MinesweeperAI.mark_mine, safeSet, ih]
    | record c n =>
      simp [runOps, applyOp, MinesweeperAI.add_knowledge, safeSet, ih]

/-- Running a call sequence accumulates exactly the mine-marked cells into
the mines set. -/
theorem runOps_mines (ai : MinesweeperAI) (ops : List Op) :
    (runOps ai ops).mines = ai.mines ∪ mineSet ops := by
  induction ops generalizing ai with
  | nil => simp [runOps, mineSet]
  | cons op rest ih =>
    cases op with
    | mSafe c =>
      simp [runOps, applyOp, MinesweeperAI.mark_safe, mineSet, ih]
    | mMine c =>
      simp [runOps, applyOp, MinesweeperAI.mark_mine, mineSet, ih,
        Finset.insert_union, Finset.union_insert]
    | record c n =>
      simp [runOps, applyOp, MinesweeperAI.add_knowledge, mineSet, ih]

/-- Claim C5: Sentence.known_mines returns exactly the cell set when the
cell-set size equals the count and the empty set otherwise, and
Sentence.known_safes returns exactly the cell set when the count is zero
and the empty set otherwise. -/
theorem known_mines_known_safes_spec (s : Sentence) :
    s.known_mines = (if (s.cells.card : Int) = s.count then s.cells else ∅) ∧
    s.known_safes = (if s.count = 0 then s.cells else ∅) := by
  refine ⟨rfl, ?_⟩
  unfold Sentence.known_safes
  by_cases h1 : (s.cells.card : Int) = s.count
  · by_cases h2 : s.count = 0
    · have hcard : s.cells.card = 0 := by omega
      simp [h1, h2, Finset.card_eq_zero.mp hcard]
    · simp [h1, h2]
  · simp [h1]

/-- Claim C2: add_knowledge returns None and leaves every field of the
engine state unchanged, because its body only defines a nested function
that is never invoked. -/
theorem add_knowledge_state_and_return (ai : MinesweeperAI) (cell : Cell) (count : Int) :
    (ai.add_knowledge cell count).1 = ai ∧ (ai.add_knowledge cell count).2 = () :=
  ⟨rfl, rfl⟩

/-- Claim C1: contrary to the claim, add_knowledge does not add the cell to
moves_made, does not mark it safe, and appends no sentence: on a fresh
3 by 3 engine, observing cell (1, 1) with count 1 leaves the state
untouched. -/
theorem add_knowledge_ignores_observation :
    ((initialAI 3 3).add_knowledge (1, 1) 1).1 = initialAI 3 3 ∧
    ((1 : Int), (1 : Int)) ∉ ((initialAI 3 3).add_knowledge (1, 1) 1).1.moves_made ∧
    ((1 : Int), (1 : Int)) ∉ ((initialAI 3 3).add_knowledge (1, 1) 1).1.safes ∧
    ((initialAI 3 3).add_knowledge (1, 1) 1).1.knowledge = [] := by
  refine ⟨rfl, ?_, ?_, rfl⟩ <;> decide

/-- Claim C6: contrary to the claim, no propagation runs: with a count-zero
sentence over cell (0, 1) in the knowledge base, recording an observation
leaves the state unchanged and (0, 1) is not marked safe, although one
propagation pass would mark it. -/
theorem add_knowledge_runs_no_propagation :
    (aiC6.add_knowledge (2, 2) 0).1 = aiC6 ∧
    ((0 : Int), (1 : Int)) ∈ (Sentence.known_safes { cells := {((0 : Int), (1 : Int))}, count := 0 }) ∧
    ((0 : Int), (1 : Int)) ∉ (aiC6.add_knowledge (2, 2) 0).1.safes := by
  refine ⟨rfl, ?_, ?_⟩ <;> decide

/-- Claim C3: contrary to the claim, when the constraint list is non-empty
both mark_mine and mark_safe raise AttributeError, because Sentence.mark_mine
and Sentence.mark_safe read attributes a Sentence object never has. -/
theorem mark_operations_raise_attribute_error :
    (aiC3.mark_mine (2, 2)).2 = some "AttributeError: Sentence object has no attribute mines" ∧
    (aiC3.mark_safe (2, 2)).2 = some "AttributeError: Sentence object has no attribute safe" :=
  ⟨rfl, rfl⟩

/-- Claim C4: contrary to the claim, mark_mine on a cell contained in a
live sentence raises and leaves the sentence untouched: the cell is not
removed from its cell set and the count is not decremented (and mark_safe
likewise removes nothing). -/
theorem mark_mine_leaves_constraints_unchanged :
    (aiC4.mark_mine (0, 0)).1.knowledge = aiC4.knowledge ∧
    (aiC4.mark_mine (0, 0)).2.isSome = true ∧
    (aiC4.mark_safe (0, 0)).1.knowledge = aiC4.knowledge ∧
    (aiC4.mark_safe (0, 0)).2.isSome = true :=
  ⟨rfl, rfl, rfl, rfl⟩

/-- Claim C10: marking a cell safe twice in a row yields the same engine
state as marking it once, and likewise for marking a mine: the second call
only re-inserts the cell into a set already containing it, and the
knowledge list is never changed by either call. -/
theorem mark_safe_mark_mine_idempotent (ai : MinesweeperAI) (c : Cell) :
    ((ai.mark_safe c).1.mark_safe c).1 = (ai.mark_safe c).1 ∧
    ((ai.mark_mine c).1.mark_mine c).1 = (ai.mark_mine c).1 := by
  constructor <;>
    simp [MinesweeperAI.mark_safe, MinesweeperAI.mark_mine,
      markSafeLoop_fst, markMineLoop_fst, Finset.insert_idem]

/-- Claim C7, counterexample: from the initial state, marking the same cell
first safe and then mine puts it into both sets, so the disjointness
invariant is silently corrupted by this call sequence. -/
theorem safes_mines_overlap_after_conflicting_marks :
    ((0 : Int), (0 : Int)) ∈ (runOps (initialAI 3 3) [Op.mSafe (0, 0), Op.mMine (0, 0)]).safes ∧
    ((0 : Int), (0 : Int)) ∈ (runOps (initialAI 3 3) [Op.mSafe (0, 0), Op.mMine (0, 0)]).mines := by
  decide

/-- Claim C7, amended: after any sequence of calls to mark_safe, mark_mine
and add_knowledge from the initial state in which the set of cells marked
safe is disjoint from the set of cells marked mine, no cell is in both the
safes set and the mines set. -/
theorem disjoint_marks_preserve_invariant (h w : Nat) (ops : List Op)
    (hdisj : safeSet ops ∩ mineSet ops = ∅) :
    (runOps (initialAI h w) ops).safes ∩ (runOps (initialAI h w) ops).mines = ∅ := by
  rw [runOps_safes, runOps_mines]
  simpa [initialAI] using hdisj

/-- Witness for the amended claim C7 at the concrete call sequence opsC7. -/
theorem disjoint_marks_preserve_invariant_witness :
    safeSet opsC7 ∩ mineSet opsC7 = ∅ ∧
    (runOps (initialAI 3 3) opsC7).safes ∩ (runOps (initialAI 3 3) opsC7).mines = ∅ :=
  ⟨by decide, disjoint_marks_preserve_invariant 3 3 opsC7 (by decide)⟩

/-- Claim C8, counterexample: the sentences s1C8 and s2C8 are each valid in
the sense that the count lies in [0, size of the cell set], the cell set of
the first is contained in that of the second, yet the derived sentence has
count -1, outside the claimed range. -/
theorem inferred_count_negative_for_valid_pair :
    SentenceValid s1C8 ∧ SentenceValid s2C8 ∧ s1C8.cells ⊆ s2C8.cells ∧
    (inferredSentence s1C8 s2C8).count < 0 := by
  refine ⟨?_, ?_, ?_, ?_⟩ <;> decide

/-- Claim C8, amended: when the two constraints are jointly satisfiable,
that is, some mine assignment M realises both counts, the subset-inference
sentence derived from them has its count in [0, size of the difference of
the cell sets]. -/
theorem inferred_count_in_range_of_model (s1 s2 : Sentence) (M : Finset Cell)
    (hsub : s1.cells ⊆ s2.cells)
    (h1 : ((M ∩ s1.cells).card : Int) = s1.count)
    (h2 : ((M ∩ s2.cells).card : Int) = s2.count) :
    0 ≤ (inferredSentence s1 s2).count ∧
    (inferredSentence s1 s2).count ≤ ((s2.cells \ s1.cells).card : Int) := by
  have hb : M ∩ s2.cells = (M ∩ s1.cells) ∪ (M ∩ (s2.cells \ s1.cells)) := by
    rw [← Finset.inter_union_distrib_left, Finset.union_sdiff_of_subset hsub]
  have hdisj : Disjoint (M ∩ s1.cells) (M ∩ (s2.cells \ s1.cells)) :=
    Finset.disjoint_sdiff.mono Finset.inter_subset_right Finset.inter_subset_right
  have hcard : (M ∩ s2.cells).card = (M ∩ s1.cells).card + (M ∩ (s2.cells \ s1.cells)).card := by
    rw [hb, Finset.card_union_of_disjoint hdisj]
  have hle : (M ∩ (s2.cells \ s1.cells)).card ≤ (s2.cells \ s1.cells).card :=
    Finset.card_le_card Finset.inter_subset_right
  have hc : (inferredSentence s1 s2).count = s2.count - s1.count := rfl
  rw [hc, ← h1, ← h2]
  constructor <;> omega

/-- Witness for the amended claim C8: the mine assignment mC8 realises both
s1C8 and s3C8, and the derived count 0 lies in [0, 1]. -/
theorem inferred_count_in_range_of_model_witness :
    s1C8.cells ⊆ s3C8.cells ∧
    ((mC8 ∩ s1C8.cells).card : Int) = s1C8.count ∧
    ((mC8 ∩ s3C8.cells).card : Int) = s3C8.count ∧
    (0 ≤ (inferredSentence s1C8 s3C8).count ∧
      (inferredSentence s1C8 s3C8).count ≤ ((s3C8.cells \ s1C8.cells).card : Int)) :=
  ⟨by decide, by decide, by decide,
    inferred_count_in_range_of_model s1C8 s3C8 mC8 (by decide) (by decide) (by decide)⟩

/-- Claim C9: make_safe_move returns a cell of the safes set not yet played,
and None exactly when no such cell exists; make_random_move returns a cell
of the possible-move set (the grid minus moves_made minus mines), never one
in moves_made or mines, None exactly when that set is empty, and the
enumeration handed to the random draw lists each candidate exactly once, so
a uniform index yields a uniform cell. -/
theorem move_selection_correct (ai : MinesweeperAI) (so ro : List Cell) (k : Nat)
    (hso : so.toFinset = ai.safes)
    (hro : ro.toFinset = ai.possible_moves)
    (hnd : ro.Nodup) :
    (∀ c, ai.make_safe_move so = some c → c ∈ ai.safes ∧ c ∉ ai.moves_made) ∧
    (ai.make_safe_move so = none ↔ ai.safes \ ai.moves_made = ∅) ∧
    (∀ c, ai.make_random_move ro k = some c →
      c ∈ ai.possible_moves ∧ c ∉ ai.moves_made ∧ c ∉ ai.mines) ∧
    (ai.make_random_move ro k = none ↔ ai.possible_moves = ∅) ∧
    (∀ c ∈ ai.possible_moves, ∃! i : Fin ro.length, ro.get i = c) := by
  refine ⟨?_, ?_, ?_, ?_, ?_⟩
  · intro c hc
    have hmem : c ∈ so := List.mem_of_find?_eq_some hc
    have hp := List.find?_some hc
    refine ⟨?_, by simpa using hp⟩
    rw [← hso]
    exact List.mem_toFinset.mpr hmem
  · rw [MinesweeperAI.make_safe_move, List.find?_eq_none, Finset.sdiff_eq_empty_iff_subset]
    constructor
    · intro h c hc
      have : c ∈ so := by rw [← List.mem_toFinset, hso]; exact hc
      have := h c this
      simpa using this
    · intro h c hc
      have : c ∈ ai.safes := by rw [← hso]; exact List.mem_toFinset.mpr hc
      simp [h this]
  · intro c hc
    rw [MinesweeperAI.make_random_move] at hc
    by_cases hemp : ai.possible_moves = ∅
    · simp [hemp] at hc
    · simp only [hemp, if_false] at hc
      have hmem : c ∈ ro := List.get?_mem hc
      have hpm : c ∈ ai.possible_moves := by
        rw [← hro]; exact List.mem_toFinset.mpr hmem
      have hpm2 := hpm
      rw [MinesweeperAI.possible_moves, Finset.mem_sdiff] at hpm2
      obtain ⟨hall, hmine⟩ := hpm2
      rw [Finset.mem_sdiff] at hall
      exact ⟨hpm, hall.2, hmine⟩
  · rw [MinesweeperAI.make_random_move]
    by_cases hemp : ai.possible_moves = ∅
    · simp [hemp]
    · simp only [hemp, if_false, iff_false]
      have hne : ro ≠ [] := by
        intro h
        rw [h] at hro
        exact hemp (by simpa using hro.symm)
      have hlen : 0 < ro.length := List.length_pos.mpr hne
      have hk : k % ro.length < ro.length := Nat.mod_lt _ hlen
      intro hnone
      rw [List.get?_eq_none] at hnone
      omega
  · intro c hc
    have hm : c ∈ ro := by rw [← List.mem_toFinset, hro]; exact hc
    obtain ⟨i, hi⟩ := List.mem_iff_get.mp hm
    exact ⟨i, hi, fun j hj => hnd.get_inj_iff.mp (hj.trans hi.symm)⟩

/-- Witness for claim C9 at the concrete state aiC9 with its enumerations. -/
theorem move_selection_correct_witness :
    soC9.toFinset = aiC9.safes ∧
    roC9.toFinset = aiC9.possible_moves ∧
    roC9.Nodup ∧
    ((∀ c, aiC9.make_safe_move soC9 = some c → c ∈ aiC9.safes ∧ c ∉ aiC9.moves_made) ∧
      (aiC9.make_safe_move soC9 = none ↔ aiC9.safes \ aiC9.moves_made = ∅) ∧
      (∀ c, aiC9.make_random_move roC9 0 = some c →
        c ∈ aiC9.possible_moves ∧ c ∉ aiC9.moves_made ∧ c ∉ aiC9.mines) ∧
      (aiC9.make_random_move roC9 0 = none ↔ aiC9.possible_moves = ∅) ∧
      (∀ c ∈ aiC9.possible_moves, ∃! i : Fin roC9.length, roC9.get i = c)) :=
  ⟨by decide, by decide, by decide,
    move_selection_correct aiC9 soC9 roC9 0 (by decide) (by decide) (by decide)⟩
